import Mathlib

/-!
Shallow embedding of the shift-aware downtime reconstruction and OEE analytics
engine (`utils/analytics.ts`) of the Atra2 repository, together with theorems
settling the specification claims about it.

Conventions of the embedding:
* JS numbers are modelled as rationals (`ℚ`); instants are milliseconds since
  the Unix epoch (the `Date` / ISO-string round trips in the source are
  identity on that representation).
* `Math.round` is modelled by `jround` (round half towards positive infinity,
  which is exactly the JS semantics).
* The JS `Array.prototype.sort` is a stable comparison sort; it is modelled by
  `List.insertionSort`, which is stable and keeps the storage order of
  elements the comparator ties.
* The JS object used as a per-machine map of open stoppages is modelled as a
  function `ℤ → Option OpenStop`.
* `utils/timeCalculations.ts` (the Shift Clock) is not part of the provided
  sources (only its callers are); its two functions are modelled from the
  spec, as indicated in their doc comments.
-/

/-- Machine run/stop status. Modelled from the spec: `types.ts` is not among
the provided sources; the spec prescribes a tagged two-value enumeration. -/
inductive MachineStatus where
  | RUNNING
  | STOPPED
deriving DecidableEq

/-- Unit of the configured cycle time. Modelled from the spec and from the
usage in `getCycleTimeInSeconds` (seconds / minutes / hours). -/
inductive CycleUnit where
  | SECONDS
  | MINUTES
  | HOURS
deriving DecidableEq

/-- Machine snapshot. Modelled from the spec: `types.ts` is not among the
provided sources; the fields are the ones read by the analytics engine
(identifier, name, current status, last status change instant, accumulated
downtime today, production count, scrap count, cycle time value and unit). -/
structure Machine where
  id : ℤ
  name : String
  status : MachineStatus
  lastUpdated : ℚ
  accumulatedDowntimeMs : ℚ
  productionCount : ℚ
  scrapCount : ℚ
  cycleTimeValue : ℚ
  cycleTimeUnit : CycleUnit
deriving DecidableEq

/-- Status-change event of the append-only log. Modelled from the spec:
`types.ts` is not among the provided sources; the engine reads `machineId`,
`newStatus`, `reason` and `timestamp` (the previous status is carried but
never read by the engine). -/
structure MachineHistoryLog where
  machineId : ℤ
  previousStatus : MachineStatus
  newStatus : MachineStatus
  reason : Option String
  timestamp : ℚ
deriving DecidableEq

/-- Work-hours configuration: enabled flag plus shift start and end as
wall-clock times of day, here in milliseconds since midnight. -/
structure WorkHoursConfig where
  enabled : Bool
  startMs : ℚ
  endMs : ℚ
deriving DecidableEq

/-- Reconstructed downtime interval (the source's `end` field is called
`endTime` because `end` is a Lean keyword). -/
structure DowntimeInterval where
  machineId : ℤ
  reason : String
  start : ℚ
  endTime : ℚ
  duration : ℚ
deriving DecidableEq

/-- Per-machine metrics record returned by `calculateFleetMetrics`. -/
structure MachineMetrics where
  machineId : ℤ
  machineName : String
  totalDowntimeMs : ℚ
  failureCount : ℕ
  mtbf : ℚ
  mttr : ℚ
  availability : ℚ
  performance : ℚ
  quality : ℚ
  oee : ℚ
deriving DecidableEq

/-- Pareto bucket returned by `calculatePareto`. -/
structure ParetoItem where
  reason : String
  count : ℕ
  durationMs : ℚ
  accumulatedPercent : ℚ
deriving DecidableEq

/-- JS `Math.round`: round half towards positive infinity. -/
def jround (q : ℚ) : ℤ := Rat.floor (q + 1/2)

/-- JS `Math.round(x * 10) / 10`: round to one decimal place. -/
def jround1 (q : ℚ) : ℚ := ((jround (q * 10) : ℤ) : ℚ) / 10

/-- JS `Math.min(100, Math.max(0, x))`: clamp to `[0, 100]`. -/
def clamp100 (q : ℚ) : ℚ := min 100 (max 0 q)

/-- Milliseconds in one calendar day. -/
def dayMs : ℚ := 86400000

/-- Overlap of `[startInstant, endInstant)` with the shift window of calendar
day `day` (day index since the epoch), clamped to be non-negative. -/
def shiftOverlap (startInstant endInstant : ℚ) (config : WorkHoursConfig) (day : ℤ) : ℚ :=
  let dayBase : ℚ := (day : ℚ) * dayMs
  max 0 (min endInstant (dayBase + config.endMs) - max startInstant (dayBase + config.startMs))

/-- Modelled from the spec: `workingMsBetween(startInstant, endInstant,
config)` of `utils/timeCalculations.ts`, which is not among the provided
sources. Per the spec it returns the portion of `[startInstant, endInstant)`
falling within the configured shift window for each calendar day the span
crosses, the raw wall-clock difference when the config is disabled, and 0
when `endInstant <= startInstant`. -/
def workingMsBetween (startInstant endInstant : ℚ) (config : WorkHoursConfig) : ℚ :=
  if endInstant ≤ startInstant then 0
  else if config.enabled = false then endInstant - startInstant
  else
    let dStart : ℤ := Rat.floor (startInstant / dayMs)
    let dEnd : ℤ := Rat.floor (endInstant / dayMs)
    let n : ℕ := (dEnd - dStart).toNat + 1
    (List.range n).foldl
      (fun (acc : ℚ) (i : ℕ) => acc + shiftOverlap startInstant endInstant config (dStart + i))
      0

/-- Modelled from the spec: `getElapsedShiftTimeTodayMs(config)` of
`utils/timeCalculations.ts`, which is not among the provided sources. Per the
spec it is the working time elapsed since today's shift start up to `now`
(0 if `now` precedes today's shift start), and the elapsed time since
midnight when the shift config is disabled. `now` is explicit here. -/
def getElapsedShiftTimeTodayMs (config : WorkHoursConfig) (now : ℚ) : ℚ :=
  let midnight : ℚ := ((Rat.floor (now / dayMs) : ℤ) : ℚ) * dayMs
  if config.enabled = false then now - midnight
  else max 0 (min now (midnight + config.endMs) - (midnight + config.startMs))

/-- Modelled from the spec: `calculateActiveDowntime(openedAt, config, now)`
of `utils/timeCalculations.ts`, which is not among the provided sources. Per
the spec it is the convenience `workingMsBetween(openedAtInstant, nowInstant,
config)`. -/
def calculateActiveDowntime (openedAt : ℚ) (config : WorkHoursConfig) (now : ℚ) : ℚ :=
  workingMsBetween openedAt now config

theorem shiftOverlap_nonneg (s e : ℚ) (c : WorkHoursConfig) (d : ℤ) :
    0 ≤ shiftOverlap s e c d :=
  le_max_left 0 _

theorem foldl_add_shiftOverlap_nonneg (s e : ℚ) (c : WorkHoursConfig) (d : ℤ)
    (l : List ℕ) (a : ℚ) (ha : 0 ≤ a) :
    0 ≤ l.foldl (fun (acc : ℚ) (i : ℕ) => acc + shiftOverlap s e c (d + i)) a := by
  induction l generalizing a with
  | nil => exact ha
  | cons x xs ih =>
      exact ih _ (add_nonneg ha (shiftOverlap_nonneg s e c (d + x)))

theorem workingMsBetween_nonneg (s e : ℚ) (c : WorkHoursConfig) :
    0 ≤ workingMsBetween s e c := by
  unfold workingMsBetween
  split
  · exact le_refl 0
  · split
    · rename_i h _
      linarith [not_le.mp h]
    · exact foldl_add_shiftOverlap_nonneg s e c _ _ 0 (le_refl 0)

theorem calculateActiveDowntime_nonneg (o : ℚ) (c : WorkHoursConfig) (n : ℚ) :
    0 ≤ calculateActiveDowntime o c n :=
  workingMsBetween_nonneg o n c

theorem jround_eq_floor (q : ℚ) : jround q = ⌊q + 1/2⌋ := by
  unfold jround
  rw [Rat.floor_def', Rat.floor_def]

theorem jround_mono {a b : ℚ} (h : a ≤ b) : jround a ≤ jround b := by
  rw [jround_eq_floor, jround_eq_floor]
  exact Int.floor_mono (by linarith)

/-- Record of a still-open stoppage kept in the replay map (`activeStops`). -/
structure OpenStop where
  start : ℚ
  reason : String
deriving DecidableEq

/-- State of the event replay: the list of closed intervals accumulated so
far, and the per-machine map of open stoppages (the JS `Record` keyed by
machine id, modelled as a function). -/
def ReplayState : Type := List DowntimeInterval × (ℤ → Option OpenStop)

/-- JS `log.reason || 'Desconhecido'`: the stoppage reason of a "stopped"
event, defaulting to the sentinel label when the reason is absent (or the
empty string, which is falsy in JS). -/
def reasonOrUnknown : Option String → String
  | some r => if r = "" then "Desconhecido" else r
  | none => "Desconhecido"

/-- Body of the `sortedLogs.forEach` of `getDowntimeIntervals`, without the
`filterStart` guard: a "stopped" event overwrites the machine's entry in
`activeStops`; a "running" event closes the machine's open stoppage, if any,
pushing an interval whose duration is the raw wall-clock delta. -/
def replayCore (st : ReplayState) (log : MachineHistoryLog) : ReplayState :=
  match log.newStatus with
  | MachineStatus.STOPPED =>
      (st.1, fun k =>
        if k = log.machineId then some ⟨log.timestamp, reasonOrUnknown log.reason⟩ else st.2 k)
  | MachineStatus.RUNNING =>
      match st.2 log.machineId with
      | some os =>
          (st.1 ++ [⟨log.machineId, os.reason, os.start, log.timestamp, log.timestamp - os.start⟩],
           fun k => if k = log.machineId then none else st.2 k)
      | none => st

/-- One `forEach` step of `getDowntimeIntervals`: events whose timestamp is
strictly before the optional `filterStart` bound are skipped. -/
def replayStep (filterStart : Option ℚ) (st : ReplayState) (log : MachineHistoryLog) : ReplayState :=
  match filterStart with
  | some f => if log.timestamp < f then st else replayCore st log
  | none => replayCore st log

/-- Comparator of the defensive sort of `getDowntimeIntervals`
(`(a, b) => ts(a) - ts(b)`, i.e. ascending by timestamp; the JS sort is
stable). -/
def logLe (a b : MachineHistoryLog) : Prop := a.timestamp ≤ b.timestamp

instance : DecidableRel logLe := fun a b => inferInstanceAs (Decidable (a.timestamp ≤ b.timestamp))

instance : IsTotal MachineHistoryLog logLe := ⟨fun a b => le_total a.timestamp b.timestamp⟩

instance : IsTrans MachineHistoryLog logLe := ⟨fun _ _ _ h h' => le_trans h h'⟩

/-- The open-interval synthesis step of `getDowntimeIntervals`: for each
machine whose current snapshot status is stopped and which still has an open
stoppage after replay, one interval from the open instant to `now` whose
duration is the shift-clipped active downtime. -/
def synthOpenInterval (workHours : WorkHoursConfig) (now : ℚ) (active : ℤ → Option OpenStop)
    (m : Machine) : Option DowntimeInterval :=
  if m.status = MachineStatus.STOPPED then
    match active m.id with
    | some os => some ⟨m.id, os.reason, os.start, now, calculateActiveDowntime os.start workHours now⟩
    | none => none
  else none

/-- Replay of `getDowntimeIntervals` from an already sorted log. -/
def getDowntimeIntervalsSorted (sortedLogs : List MachineHistoryLog) (machines : List Machine)
    (workHours : WorkHoursConfig) (filterStart : Option ℚ) (now : ℚ) : List DowntimeInterval :=
  let final := sortedLogs.foldl (replayStep filterStart) (([], fun _ => none) : ReplayState)
  final.1 ++ machines.filterMap (synthOpenInterval workHours now final.2)

/-- `getDowntimeIntervals` of `utils/analytics.ts`: sorts the event log
ascending by timestamp (stable), replays it, then synthesizes one open
interval per machine that is currently stopped with an open stoppage.
`now` (`Date.now()` in the source) is an explicit parameter here. -/
def getDowntimeIntervals (history : List MachineHistoryLog) (machines : List Machine)
    (workHours : WorkHoursConfig) (filterStart : Option ℚ) (now : ℚ) : List DowntimeInterval :=
  getDowntimeIntervalsSorted (List.insertionSort logLe history) machines workHours filterStart now

/-- `getCycleTimeInSeconds` of `utils/analytics.ts`: normalizes the
configured cycle time to seconds, with the safe fallback 30 when the value
is zero or negative (JS `!val || val <= 0`). -/
def getCycleTimeInSeconds (val : ℚ) (unit : CycleUnit) : ℚ :=
  if val ≤ 0 then 30
  else
    match unit with
    | CycleUnit.MINUTES => val * 60
    | CycleUnit.HOURS => val * 3600
    | CycleUnit.SECONDS => val

/-- The 30-day historical window length used by the MTBF/MTTR formulas. -/
def THIRTY_DAYS_MS : ℚ := 30 * 24 * 60 * 60 * 1000

/-- Body of the `machines.map` of `calculateFleetMetrics`: the per-machine
metrics record computed from the reconstructed intervals, today's planned
production time, and the machine snapshot. -/
def machineMetricsFor (plannedProductionTimeMs : ℚ) (intervals : List DowntimeInterval)
    (workHours : WorkHoursConfig) (now : ℚ) (machine : Machine) : MachineMetrics :=
  let machineIntervalsAll := intervals.filter (fun i => i.machineId = machine.id)
  let totalDowntimeHistorical := (machineIntervalsAll.map (fun i => i.duration)).sum
  let failureCount := machineIntervalsAll.length
  let mttrMinutes : ℚ :=
    if failureCount > 0 then totalDowntimeHistorical / failureCount / 1000 / 60 else 0
  let uptimeHistorical := THIRTY_DAYS_MS - totalDowntimeHistorical
  let mtbfHours : ℚ :=
    if failureCount > 0 then uptimeHistorical / failureCount / 1000 / 3600
    else uptimeHistorical / 1000 / 3600
  let currentStopDuration : ℚ :=
    if machine.status = MachineStatus.STOPPED then
      calculateActiveDowntime machine.lastUpdated workHours now
    else 0
  let downtimeTodayMs := machine.accumulatedDowntimeMs + currentStopDuration
  let runTimeMs := max 0 (plannedProductionTimeMs - downtimeTodayMs)
  let availability : ℚ :=
    if plannedProductionTimeMs > 0 then runTimeMs / plannedProductionTimeMs * 100 else 0
  let cycleTimeSeconds := getCycleTimeInSeconds machine.cycleTimeValue machine.cycleTimeUnit
  let runTimeSeconds := runTimeMs / 1000
  let theoreticalMaxProduction : ℚ :=
    if cycleTimeSeconds > 0 then runTimeSeconds / cycleTimeSeconds else 0
  let totalProduced := machine.productionCount + machine.scrapCount
  let performance : ℚ :=
    if theoreticalMaxProduction > 0 then totalProduced / theoreticalMaxProduction * 100 else 0
  let quality : ℚ :=
    if totalProduced > 0 then machine.productionCount / totalProduced * 100 else 100
  let oee := availability / 100 * (performance / 100) * (quality / 100) * 100
  { machineId := machine.id
    machineName := machine.name
    totalDowntimeMs := downtimeTodayMs
    failureCount := failureCount
    mtbf := jround1 mtbfHours
    mttr := ((jround mttrMinutes : ℤ) : ℚ)
    availability := clamp100 (jround1 availability)
    performance := clamp100 (jround1 performance)
    quality := clamp100 (jround1 quality)
    oee := clamp100 (jround1 oee) }

/-- `calculateFleetMetrics` of `utils/analytics.ts`. `now` (`Date.now()` in
the source) is an explicit parameter; `getDowntimeIntervals` is called
without a `filterStart` bound, exactly as in the source. -/
def calculateFleetMetrics (machines : List Machine) (history : List MachineHistoryLog)
    (workHours : WorkHoursConfig) (now : ℚ) : List MachineMetrics :=
  let intervals := getDowntimeIntervals history machines workHours none now
  let plannedProductionTimeMs := getElapsedShiftTimeTodayMs workHours now
  machines.map (machineMetricsFor plannedProductionTimeMs intervals workHours now)

/-- One step of the `intervals.forEach` grouping of `calculatePareto`: bump
the bucket of the interval's reason in the insertion-ordered association
list (JS string-keyed objects preserve first-insertion order). -/
def updateGroup : List (String × ℕ × ℚ) → String → ℚ → List (String × ℕ × ℚ)
  | [], r, d => [(r, 1, d)]
  | g :: gs, r, d =>
      if g.1 = r then (g.1, g.2.1 + 1, g.2.2 + d) :: gs
      else g :: updateGroup gs r d

/-- Comparator of the descending sort of `calculatePareto`
(`(a, b) => b.durationMs - a.durationMs`; the JS sort is stable). -/
def groupGe (a b : String × ℕ × ℚ) : Prop := b.2.2 ≤ a.2.2

instance : DecidableRel groupGe := fun a b => inferInstanceAs (Decidable (b.2.2 ≤ a.2.2))

instance : IsTotal (String × ℕ × ℚ) groupGe := ⟨fun a b => le_total b.2.2 a.2.2⟩

instance : IsTrans (String × ℕ × ℚ) groupGe := ⟨fun _ _ _ h h' => le_trans h' h⟩

/-- The cumulative-percentage pass of `calculatePareto`: each item carries
the running accumulated percentage rounded to the nearest whole percent
(`Math.round(accumulated)` applied to the running sum). -/
def paretoAccum (totalDuration : ℚ) (accumulated : ℚ) :
    List (String × ℕ × ℚ) → List ParetoItem
  | [] => []
  | g :: gs =>
      let percent : ℚ := if totalDuration > 0 then g.2.2 / totalDuration * 100 else 0
      let acc2 := accumulated + percent
      ⟨g.1, g.2.1, g.2.2, ((jround acc2 : ℤ) : ℚ)⟩ :: paretoAccum totalDuration acc2 gs

/-- `calculatePareto` of `utils/analytics.ts`: group intervals by reason in
first-insertion order, sort the groups descending by total duration (stable),
then attach running cumulative percentages of the grand total duration. -/
def calculatePareto (machines : List Machine) (history : List MachineHistoryLog)
    (workHours : WorkHoursConfig) (now : ℚ) : List ParetoItem :=
  let intervals := getDowntimeIntervals history machines workHours none now
  let grouped := intervals.foldl (fun gs i => updateGroup gs i.reason i.duration) []
  let totalDuration := (grouped.map (fun g => g.2.2)).sum
  let sorted := List.insertionSort groupGe grouped
  paretoAccum totalDuration 0 sorted

/-- Decimal rendering used by the insight messages for `toFixed(1)` (the
exact JS float formatting is irrelevant to every claim; only the message
identity as a string matters). -/
def ratToFixed1 (q : ℚ) : String :=
  let n := jround (q * 10)
  toString (n / 10) ++ "." ++ toString (n % 10)

/-- Fleet-average OEE of `generateAIInsights`
(`metrics.reduce(...) / (metrics.length || 1)`). -/
def fleetAvgOEE (metrics : List MachineMetrics) : ℚ :=
  (metrics.foldl (fun acc m => acc + m.oee) 0) /
    (if metrics.length = 0 then 1 else (metrics.length : ℚ))

/-- Comparator of the worst-machine sort of `generateAIInsights`
(`(a, b) => a.oee - b.oee`, ascending by OEE; the JS sort is stable). -/
def oeeLe (a b : MachineMetrics) : Prop := a.oee ≤ b.oee

instance : DecidableRel oeeLe := fun a b => inferInstanceAs (Decidable (a.oee ≤ b.oee))

instance : IsTotal MachineMetrics oeeLe := ⟨fun a b => le_total a.oee b.oee⟩

instance : IsTrans MachineMetrics oeeLe := ⟨fun _ _ _ h h' => le_trans h h'⟩

/-- `[...metrics].sort((a,b) => a.oee - b.oee)[0]`: the single
worst-performing machine (none when the metrics list is empty). -/
def worstMachine (metrics : List MachineMetrics) : Option MachineMetrics :=
  (List.insertionSort oeeLe metrics).head?

/-- The critical-fleet-OEE insight message. -/
def insightCritical (avgOEE : ℚ) : String :=
  "OEE Crítico: A média da frota está em " ++ ratToFixed1 avgOEE ++
    "%. O padrão industrial busca > 85%."

/-- The worst-performing-machine insight message. -/
def insightBottleneck (w : MachineMetrics) : String :=
  "Gargalo Identificado: " ++ w.machineName ++ " tem o pior desempenho (OEE: " ++
    ratToFixed1 w.oee ++ "%)."

/-- The top-Pareto-cause insight message. -/
def insightTopCause (top : ParetoItem) : String :=
  "Causa Principal: \"" ++ top.reason ++ "\" corresponde a maior perda de tempo."

/-- `generateAIInsights` of `utils/analytics.ts`: the three rules evaluated
in order, each appending at most one message. -/
def generateAIInsights (metrics : List MachineMetrics) (pareto : List ParetoItem) :
    List String :=
  let insights : List String := []
  let avgOEE := fleetAvgOEE metrics
  let insights := if avgOEE < 60 then insights ++ [insightCritical avgOEE] else insights
  let insights :=
    match worstMachine metrics with
    | some w => if w.oee < 70 then insights ++ [insightBottleneck w] else insights
    | none => insights
  let insights :=
    match pareto with
    | [] => insights
    | top :: _ => insights ++ [insightTopCause top]
  insights

/-! Concrete fixtures shared by several claims. -/

/-- A disabled work-hours configuration (every instant counts as working
time; elapsed shift time today is the time since midnight). -/
def cfgDisabled : WorkHoursConfig := { enabled := false, startMs := 0, endMs := 0 }

/-- The machine of the spec's worked example: cycle time 30 s, no downtime,
100 good units and 5 scrap. -/
def machineC7 : Machine :=
  { id := 1, name := "M1", status := MachineStatus.RUNNING, lastUpdated := 0,
    accumulatedDowntimeMs := 0, productionCount := 100, scrapCount := 5,
    cycleTimeValue := 30, cycleTimeUnit := CycleUnit.SECONDS }

/-- An idle running machine with no production, used where only the
reconstruction path matters. -/
def machineIdle : Machine :=
  { id := 1, name := "M1", status := MachineStatus.RUNNING, lastUpdated := 0,
    accumulatedDowntimeMs := 0, productionCount := 0, scrapCount := 0,
    cycleTimeValue := 30, cycleTimeUnit := CycleUnit.SECONDS }

/-- A closed one-minute stoppage at the epoch: stop at 0, run at 60000. -/
def histStopRun : List MachineHistoryLog :=
  [ { machineId := 1, previousStatus := MachineStatus.RUNNING,
      newStatus := MachineStatus.STOPPED, reason := some "A", timestamp := 0 },
    { machineId := 1, previousStatus := MachineStatus.STOPPED,
      newStatus := MachineStatus.RUNNING, reason := none, timestamp := 60000 } ]

/-- A "stopped" event at instant 100. -/
def evStop100 : MachineHistoryLog :=
  { machineId := 1, previousStatus := MachineStatus.RUNNING,
    newStatus := MachineStatus.STOPPED, reason := some "A", timestamp := 100 }

/-- A "running" event at the same instant 100. -/
def evRun100 : MachineHistoryLog :=
  { machineId := 1, previousStatus := MachineStatus.STOPPED,
    newStatus := MachineStatus.RUNNING, reason := none, timestamp := 100 }

/-! Claim C1. -/

unseal Rat.add Rat.mul Rat.inv Rat.sub in
/-- C1: the failure count and total downtime feeding MTBF and MTTR are NOT
restricted to a 30-day window, contrary to the claim (and to the source's own
comment that a 30-day historical window is used): `calculateFleetMetrics`
calls `getDowntimeIntervals` without any `filterStart` bound, so a stoppage
that ended 60 days before `now` (5184000000 ms = 60 days, while the interval
ends at 60000 ms) is still counted. The code reports `failureCount = 1` and
`MTTR = 1` minute for that machine; under the claim the stale interval would
be excluded, giving `failureCount = 0` and `MTTR = 0`. -/
theorem calculateFleetMetrics_counts_stale_interval :
    (calculateFleetMetrics [machineIdle] histStopRun cfgDisabled 5184000000).map
      (fun e => (e.failureCount, e.mttr, e.mtbf)) = [(1, 1, 720)] := by decide

/-! Claim C6. -/

unseal Rat.add Rat.mul Rat.inv Rat.sub in
/-- C6: during event replay, a "stopped" event for a machine overwrites that
machine's entry in the open-stoppage map with the new start instant and
reason, emits no interval (so an earlier unclosed stoppage for the machine is
silently discarded and can never appear as an output interval), leaves every
other machine's entry unchanged, and raises no error (the step is a total
function). The map keys entries per machine id, so at most one stoppage per
machine is open at any point of the replay. -/
theorem replayCore_stopped_overwrites (st : ReplayState) (log : MachineHistoryLog)
    (h : log.newStatus = MachineStatus.STOPPED) :
    (replayCore st log).1 = st.1 ∧
    (replayCore st log).2 log.machineId =
      some { start := log.timestamp, reason := reasonOrUnknown log.reason } ∧
    (∀ k, k ≠ log.machineId → (replayCore st log).2 k = st.2 k) := by
  unfold replayCore
  rw [h]
  refine ⟨rfl, by simp, fun k hk => by simp [hk]⟩

/-- Witness for C6: a state in which machine 1 already has an open stoppage
(start 5, reason "B"); the "stopped" event at instant 100 replaces it with
(start 100, reason "A") and adds no interval. -/
theorem replayCore_stopped_overwrites_witness :
    (replayCore ([], fun k => if k = 1 then some { start := 5, reason := "B" } else none)
        evStop100).1 = [] ∧
    (replayCore ([], fun k => if k = 1 then some { start := 5, reason := "B" } else none)
        evStop100).2 1 = some { start := 100, reason := "A" } ∧
    (∀ k, k ≠ (1:ℤ) →
      (replayCore ([], fun k => if k = 1 then some { start := 5, reason := "B" } else none)
          evStop100).2 k =
        (fun k : ℤ => if k = 1 then some { start := 5, reason := "B" } else none) k) :=
  replayCore_stopped_overwrites
    ([], fun k => if k = 1 then some { start := 5, reason := "B" } else none)
    evStop100 (by decide)

/-! Claim C7. -/

unseal Rat.add Rat.mul Rat.inv Rat.sub in
/-- C7: for a running machine with cycle time 30 seconds, elapsed shift time
today of 3600000 ms (realized by the disabled config at `now` = 3600000 ms
past midnight), no downtime today, 100 good units and 5 scrap: the
theoretical maximum production is 120 units, Availability is 100%,
Performance is 87.5%, Quality is 95.2% and OEE is 83.3%. -/
theorem calculateFleetMetrics_example_cycle30 :
    getElapsedShiftTimeTodayMs cfgDisabled 3600000 = 3600000 ∧
    (max 0 ((3600000:ℚ) - 0)) / 1000 / getCycleTimeInSeconds 30 CycleUnit.SECONDS = 120 ∧
    (calculateFleetMetrics [machineC7] [] cfgDisabled 3600000).map
      (fun e => (e.availability, e.performance, e.quality, e.oee)) =
      [(100, 175/2, 476/5, 833/10)] := by decide

/-! Claim C8. -/

unseal Rat.add Rat.mul Rat.inv Rat.sub in
/-- C8: the metrics output has exactly one entry per input machine snapshot,
in the same order as the input machine list (the i-th output is the i-th
machine's record), and an empty machine list yields an empty metrics array
rather than an error. -/
theorem calculateFleetMetrics_one_per_machine (machines : List Machine)
    (history : List MachineHistoryLog) (workHours : WorkHoursConfig) (now : ℚ) :
    (calculateFleetMetrics machines history workHours now).length = machines.length ∧
    (∀ i (h1 : i < (calculateFleetMetrics machines history workHours now).length)
        (h2 : i < machines.length),
        ((calculateFleetMetrics machines history workHours now).get ⟨i, h1⟩).machineId =
          (machines.get ⟨i, h2⟩).id ∧
        ((calculateFleetMetrics machines history workHours now).get ⟨i, h1⟩).machineName =
          (machines.get ⟨i, h2⟩).name) ∧
    (machines = [] → calculateFleetMetrics machines history workHours now = []) := by
  refine ⟨by simp [calculateFleetMetrics], ?_, ?_⟩
  · intro i h1 h2
    simp [calculateFleetMetrics, machineMetricsFor]
  · intro h
    simp [h, calculateFleetMetrics]

/-- Witness for C8: with one concrete machine the single output entry carries
that machine's id and name, and the length is 1. -/
theorem calculateFleetMetrics_one_per_machine_witness :
    ((calculateFleetMetrics [machineC7] [] cfgDisabled 3600000).get
        ⟨0, by decide⟩).machineId = (([machineC7] : List Machine).get ⟨0, by decide⟩).id ∧
    ((calculateFleetMetrics [machineC7] [] cfgDisabled 3600000).get
        ⟨0, by decide⟩).machineName = (([machineC7] : List Machine).get ⟨0, by decide⟩).name :=
  (calculateFleetMetrics_one_per_machine [machineC7] [] cfgDisabled 3600000).2.1 0
    (by decide) (by decide)

/-! Claims C9 and C10. -/

/-- Decomposition of `generateAIInsights` as the concatenation of its three
rules, shared by the claims about the insight generator. -/
theorem generateAIInsights_eq (metrics : List MachineMetrics) (pareto : List ParetoItem) :
    generateAIInsights metrics pareto =
      (if fleetAvgOEE metrics < 60 then [insightCritical (fleetAvgOEE metrics)] else []) ++
      (match worstMachine metrics with
       | some w => if w.oee < 70 then [insightBottleneck w] else []
       | none => []) ++
      (match pareto with
       | [] => []
       | top :: _ => [insightTopCause top]) := by
  unfold generateAIInsights
  repeat' split
  all_goals simp_all

/-- C9: the insight generator is exactly the concatenation of the three
fixed-order rules (fleet-average-OEE-below-60 first, then
worst-performing-machine-below-70, then the top-Pareto-cause message, the
latter emitted whenever the Pareto list is non-empty); each rule contributes
at most one message, so the returned list has between 0 and 3 entries. -/
theorem generateAIInsights_rules (metrics : List MachineMetrics) (pareto : List ParetoItem) :
    generateAIInsights metrics pareto =
      (if fleetAvgOEE metrics < 60 then [insightCritical (fleetAvgOEE metrics)] else []) ++
      (match worstMachine metrics with
       | some w => if w.oee < 70 then [insightBottleneck w] else []
       | none => []) ++
      (match pareto with
       | [] => []
       | top :: _ => [insightTopCause top]) ∧
    (generateAIInsights metrics pareto).length ≤ 3 := by
  have hmain := generateAIInsights_eq metrics pareto
  refine ⟨hmain, ?_⟩
  rw [hmain]
  have h1 : (if fleetAvgOEE metrics < 60 then [insightCritical (fleetAvgOEE metrics)]
      else []).length ≤ 1 := by split <;> simp
  have h2 : (match worstMachine metrics with
      | some w => if w.oee < 70 then [insightBottleneck w] else []
      | none => []).length ≤ 1 := by
    repeat' split
    all_goals simp
  have h3 : (match pareto with
      | [] => []
      | top :: _ => [insightTopCause top]).length ≤ 1 := by
    repeat' split
    all_goals simp
  simp only [List.length_append]
  omega

/-- C10: with an empty metrics list the fleet-average OEE evaluates to 0
(the fallback denominator is 1), which is below the 60% threshold, so the
critical-OEE insight is emitted and the returned list is non-empty even
though there is no data; no worst-machine insight is emitted (the worst
machine of an empty list is undefined). -/
theorem generateAIInsights_empty_metrics (pareto : List ParetoItem) :
    fleetAvgOEE [] = 0 ∧
    generateAIInsights [] pareto =
      insightCritical 0 ::
        (match pareto with
         | [] => []
         | top :: _ => [insightTopCause top]) ∧
    generateAIInsights [] pareto ≠ [] := by
  have havg : fleetAvgOEE [] = 0 := by
    unfold fleetAvgOEE
    norm_num
  have hw : worstMachine ([] : List MachineMetrics) = none := rfl
  have hmain := generateAIInsights_eq [] pareto
  rw [havg, hw] at hmain
  rw [if_pos (by norm_num : (0:ℚ) < 60)] at hmain
  refine ⟨havg, ?_, ?_⟩
  · rw [hmain]
    rcases pareto with _ | ⟨top, rest⟩ <;> simp
  · rw [hmain]
    rcases pareto with _ | ⟨top, rest⟩ <;> simp

/-! Claim C2. -/

/-- Machine whose internal availability, performance and quality are 100,
2999/30 (≈ 99.967) and 99.96: each reported percentage rounds to 100.0, yet
the reported OEE is 99.9. -/
def machineC2 : Machine :=
  { id := 1, name := "M1", status := MachineStatus.RUNNING, lastUpdated := 0,
    accumulatedDowntimeMs := 0, productionCount := 2499, scrapCount := 1,
    cycleTimeValue := 2999/100, cycleTimeUnit := CycleUnit.SECONDS }

unseal Rat.add Rat.mul Rat.inv Rat.sub in
/-- Counterexample to C2 as stated: for `machineC2` at `now` = 75000000 ms
(disabled shift config, so 75000000 ms of planned time) the reported
percentages are Availability = 100, Performance = 100, Quality = 100 — none
of them altered by clamping, since each equals the plain rounding of its
internal value and lies at most at 100 — while the reported OEE is 99.9.
The claim's formula applied to the reported percentages gives
round(100/100 · 100/100 · 100/100 · 100, 1) = 100 (also after clamping),
and 99.9 ≠ 100: the difference is introduced by rounding, not by clamping,
because the code computes OEE from the pre-rounding internal values. -/
theorem calculateFleetMetrics_oee_not_from_reported :
    (calculateFleetMetrics [machineC2] [] cfgDisabled 75000000).map
      (fun e => (e.availability, e.performance, e.quality, e.oee)) =
      [(100, 100, 100, 999/10)] ∧
    jround1 ((100:ℚ)/100 * (100/100) * (100/100) * 100) = 100 ∧
    clamp100 (jround1 ((100:ℚ)/100 * (100/100) * (100/100) * 100)) = 100 ∧
    (999/10 : ℚ) ≠ 100 := by decide

/-- C2 (amended): for every machine entry of the metrics output, the
reported OEE equals round-to-one-decimal of
`a/100 * p/100 * q/100 * 100` — clamped to [0, 100] — where `a`, `p`, `q`
are the machine's INTERNAL (pre-rounding, pre-clamping) availability,
performance and quality values, each of which the entry reports as its
clamped one-decimal rounding. (The claim as stated, with the reported
percentages in place of the internal ones, is false: see the
counterexample.) -/
theorem calculateFleetMetrics_oee_from_raw (machines : List Machine)
    (history : List MachineHistoryLog) (workHours : WorkHoursConfig) (now : ℚ) :
    ∀ e ∈ calculateFleetMetrics machines history workHours now,
      ∃ a p q : ℚ,
        e.availability = clamp100 (jround1 a) ∧
        e.performance = clamp100 (jround1 p) ∧
        e.quality = clamp100 (jround1 q) ∧
        e.oee = clamp100 (jround1 (a / 100 * (p / 100) * (q / 100) * 100)) := by
  intro e he
  unfold calculateFleetMetrics at he
  rw [List.mem_map] at he
  obtain ⟨m, hm, rfl⟩ := he
  exact ⟨_, _, _, rfl, rfl, rfl, rfl⟩

/-- The metrics record computed for `machineC7` in the worked example. -/
def metricsRecC7 : MachineMetrics :=
  { machineId := 1, machineName := "M1", totalDowntimeMs := 0, failureCount := 0,
    mtbf := 720, mttr := 0, availability := 100, performance := 175/2,
    quality := 476/5, oee := 833/10 }

unseal Rat.add Rat.mul Rat.inv Rat.sub in
/-- Witness for the amended C2, at the concrete worked-example machine. -/
theorem calculateFleetMetrics_oee_from_raw_witness :
    ∃ a p q : ℚ,
      metricsRecC7.availability = clamp100 (jround1 a) ∧
      metricsRecC7.performance = clamp100 (jround1 p) ∧
      metricsRecC7.quality = clamp100 (jround1 q) ∧
      metricsRecC7.oee = clamp100 (jround1 (a / 100 * (p / 100) * (q / 100) * 100)) :=
  calculateFleetMetrics_oee_from_raw [machineC7] [] cfgDisabled 3600000 metricsRecC7
    (by decide)

/-! Claim C5. -/

/-- Closed intervals pushed by `replayCore` carry the raw wall-clock delta
as their duration; the property is preserved by each replay step. -/
theorem replayCore_rawDelta (st : ReplayState) (log : MachineHistoryLog)
    (h : ∀ i ∈ st.1, i.duration = i.endTime - i.start) :
    ∀ i ∈ (replayCore st log).1, i.duration = i.endTime - i.start := by
  intro i hi
  unfold replayCore at hi
  split at hi
  · exact h i hi
  · split at hi
    · rw [List.mem_append] at hi
      rcases hi with hi | hi
      · exact h i hi
      · rw [List.mem_singleton] at hi
        subst hi
        rfl
    · exact h i hi

/-- The raw-delta property of accumulated closed intervals is preserved by
`replayStep`. -/
theorem replayStep_rawDelta (fs : Option ℚ) (st : ReplayState) (log : MachineHistoryLog)
    (h : ∀ i ∈ st.1, i.duration = i.endTime - i.start) :
    ∀ i ∈ (replayStep fs st log).1, i.duration = i.endTime - i.start := by
  intro i hi
  unfold replayStep at hi
  rcases fs with _ | f
  · exact replayCore_rawDelta st log h i hi
  · change i ∈ (if log.timestamp < f then st else replayCore st log).1 at hi
    by_cases hc : log.timestamp < f
    · rw [if_pos hc] at hi
      exact h i hi
    · rw [if_neg hc] at hi
      exact replayCore_rawDelta st log h i hi

/-- The raw-delta property of accumulated closed intervals is preserved by
the whole replay fold. -/
theorem replay_foldl_rawDelta (fs : Option ℚ) (logs : List MachineHistoryLog)
    (st : ReplayState) (h : ∀ i ∈ st.1, i.duration = i.endTime - i.start) :
    ∀ i ∈ (logs.foldl (replayStep fs) st).1, i.duration = i.endTime - i.start := by
  induction logs generalizing st with
  | nil => exact h
  | cons l ls ih =>
      rw [List.foldl_cons]
      exact ih _ (replayStep_rawDelta fs st l h)

/-- C5: every interval output by `getDowntimeIntervals` either is a closed
interval whose duration is the raw wall-clock delta between its open and
close instants (no shift clipping), or is an open interval synthesized after
replay for a machine whose current snapshot status is stopped, with end =
`now` and duration = the shift-clipped `calculateActiveDowntime` evaluated
at its open instant, the config and `now`. -/
theorem getDowntimeIntervals_duration_dichotomy (history : List MachineHistoryLog)
    (machines : List Machine) (workHours : WorkHoursConfig) (fs : Option ℚ) (now : ℚ) :
    ∀ i ∈ getDowntimeIntervals history machines workHours fs now,
      i.duration = i.endTime - i.start ∨
      (i.endTime = now ∧ i.duration = calculateActiveDowntime i.start workHours now ∧
        ∃ m ∈ machines, m.id = i.machineId ∧ m.status = MachineStatus.STOPPED) := by
  intro i hi
  unfold getDowntimeIntervals getDowntimeIntervalsSorted at hi
  rw [List.mem_append] at hi
  rcases hi with hi | hi
  · refine Or.inl (replay_foldl_rawDelta fs _ _ ?_ i hi)
    intro j hj
    exact absurd hj (List.not_mem_nil j)
  · right
    rw [List.mem_filterMap] at hi
    obtain ⟨m, hm, hsyn⟩ := hi
    unfold synthOpenInterval at hsyn
    split at hsyn
    · rename_i hstatus
      split at hsyn
      · rename_i os hos
        rw [Option.some_inj] at hsyn
        subst hsyn
        exact ⟨rfl, rfl, m, hm, rfl, hstatus⟩
      · exact absurd hsyn (by simp)
    · exact absurd hsyn (by simp)

/-- The closed one-minute interval reconstructed from `histStopRun`. -/
def intervalC5 : DowntimeInterval :=
  { machineId := 1, reason := "A", start := 0, endTime := 60000, duration := 60000 }

unseal Rat.add Rat.mul Rat.inv Rat.sub in
/-- Witness for C5: the closed one-minute interval reconstructed from
`histStopRun` satisfies the dichotomy (its duration is the raw delta). -/
theorem getDowntimeIntervals_duration_dichotomy_witness :
    intervalC5.duration = intervalC5.endTime - intervalC5.start ∨
    (intervalC5.endTime = 100000 ∧
      intervalC5.duration = calculateActiveDowntime intervalC5.start cfgDisabled 100000 ∧
      ∃ m ∈ [machineIdle], m.id = intervalC5.machineId ∧
        m.status = MachineStatus.STOPPED) :=
  getDowntimeIntervals_duration_dichotomy histStopRun [machineIdle] cfgDisabled none 100000
    intervalC5 (by decide)

/-! Claim C4. -/

/-- Strict version of the timestamp order on events. -/
def logLt (a b : MachineHistoryLog) : Prop := a.timestamp < b.timestamp

instance : IsAntisymm MachineHistoryLog logLt :=
  ⟨fun a _ h h' => absurd (lt_trans h h') (lt_irrefl a.timestamp)⟩

/-- A list of events sorted by the (non-strict) timestamp order whose
timestamps are pairwise distinct is sorted by the strict order. -/
theorem sorted_logLt_of_sorted_nodup {l : List MachineHistoryLog}
    (hs : List.Sorted logLe l) (hn : (l.map (fun x => x.timestamp)).Nodup) :
    List.Sorted logLt l := by
  have hne : l.Pairwise (fun a b => a.timestamp ≠ b.timestamp) := List.pairwise_map.mp hn
  exact (List.Pairwise.and hs hne).imp (fun h => lt_of_le_of_ne h.1 h.2)

/-- Two permutations of the same event multiset with pairwise-distinct
timestamps have the same stable sort. -/
theorem insertionSort_eq_of_perm_of_nodup_ts {h1 h2 : List MachineHistoryLog}
    (hp : h1.Perm h2) (hn : (h1.map (fun l => l.timestamp)).Nodup) :
    List.insertionSort logLe h1 = List.insertionSort logLe h2 := by
  have hp1 : (List.insertionSort logLe h1).Perm h1 := List.perm_insertionSort logLe h1
  have hp2 : (List.insertionSort logLe h2).Perm h2 := List.perm_insertionSort logLe h2
  have hperm : (List.insertionSort logLe h1).Perm (List.insertionSort logLe h2) :=
    hp1.trans (hp.trans hp2.symm)
  have hn1 : ((List.insertionSort logLe h1).map (fun l => l.timestamp)).Nodup :=
    ((hp1.map (fun l => l.timestamp)).nodup_iff).mpr hn
  have hn2 : ((List.insertionSort logLe h2).map (fun l => l.timestamp)).Nodup :=
    ((hperm.map (fun l => l.timestamp)).nodup_iff).mp hn1
  exact List.eq_of_perm_of_sorted hperm
    (sorted_logLt_of_sorted_nodup (List.sorted_insertionSort logLe h1) hn1)
    (sorted_logLt_of_sorted_nodup (List.sorted_insertionSort logLe h2) hn2)

unseal Rat.add Rat.mul Rat.inv Rat.sub in
/-- Counterexample to C4 as stated: `evStop100` and `evRun100` are two
distinct events for machine 1 sharing the equal timestamp 100. The defensive
sort is stable, so it preserves the storage order of the tied pair: with
storage order [stop, run] the stoppage is closed (one interval, duration 0);
with storage order [run, stop] the run event arrives first and the stoppage
stays open, and since the machine snapshot is RUNNING no interval is
synthesized (empty output). The two outputs differ even as sets (one is
empty, the other is not), so reconstruction from a permuted log is NOT
order-independent when distinct events share a timestamp. -/
theorem getDowntimeIntervals_perm_counterexample :
    List.Perm [evStop100, evRun100] [evRun100, evStop100] ∧
    (getDowntimeIntervals [evStop100, evRun100] [machineIdle] cfgDisabled none 200).length = 1 ∧
    (getDowntimeIntervals [evRun100, evStop100] [machineIdle] cfgDisabled none 200).length = 0 :=
  ⟨List.Perm.swap evRun100 evStop100 [], by decide, by decide⟩

/-- C4 (amended): reconstructing downtime intervals from the pre-sorted
event log and from any permutation of it yields identical outputs PROVIDED
the events' timestamps are pairwise distinct; with an equal timestamp shared
by distinct events the stable sort preserves storage order and the outputs
can differ (see the counterexample). -/
theorem getDowntimeIntervals_storage_order_independent
    (h1 h2 : List MachineHistoryLog) (machines : List Machine)
    (workHours : WorkHoursConfig) (fs : Option ℚ) (now : ℚ)
    (hp : h1.Perm h2) (hn : (h1.map (fun l => l.timestamp)).Nodup) :
    getDowntimeIntervals h1 machines workHours fs now =
      getDowntimeIntervals h2 machines workHours fs now := by
  unfold getDowntimeIntervals
  rw [insertionSort_eq_of_perm_of_nodup_ts hp hn]

/-- A "stopped" event at instant 50, timestamp distinct from `evRun100`. -/
def evStop50 : MachineHistoryLog :=
  { machineId := 1, previousStatus := MachineStatus.RUNNING,
    newStatus := MachineStatus.STOPPED, reason := some "A", timestamp := 50 }

/-- Witness for the amended C4: swapping two events with distinct timestamps
does not change the reconstruction. -/
theorem getDowntimeIntervals_storage_order_independent_witness :
    getDowntimeIntervals [evStop50, evRun100] [machineIdle] cfgDisabled none 200 =
      getDowntimeIntervals [evRun100, evStop50] [machineIdle] cfgDisabled none 200 :=
  getDowntimeIntervals_storage_order_independent [evStop50, evRun100] [evRun100, evStop50]
    [machineIdle] cfgDisabled none 200 (List.Perm.swap evRun100 evStop50 []) (by decide)

/-! Claim C3. -/

/-- Closed intervals pushed by `replayCore` have non-negative duration, as
long as every open stoppage in the state started no later than the incoming
event. -/
theorem replayCore_nonneg (st : ReplayState) (l : MachineHistoryLog)
    (h1 : ∀ i ∈ st.1, 0 ≤ i.duration)
    (h2 : ∀ k os, st.2 k = some os → os.start ≤ l.timestamp) :
    ∀ i ∈ (replayCore st l).1, 0 ≤ i.duration := by
  intro i hi
  unfold replayCore at hi
  split at hi
  · exact h1 i hi
  · split at hi
    · rename_i os hos
      rw [List.mem_append] at hi
      rcases hi with hi | hi
      · exact h1 i hi
      · rw [List.mem_singleton] at hi
        subst hi
        exact sub_nonneg.mpr (h2 l.machineId os hos)
    · exact h1 i hi

/-- After a `replayCore` step, every open stoppage still starts no later
than every remaining event, provided the incoming event precedes the
remaining ones and the property held before. -/
theorem replayCore_bound (st : ReplayState) (l : MachineHistoryLog)
    (ls : List MachineHistoryLog)
    (hhead : ∀ x ∈ ls, l.timestamp ≤ x.timestamp)
    (h2 : ∀ k os, st.2 k = some os → ∀ x ∈ ls, os.start ≤ x.timestamp) :
    ∀ k os, (replayCore st l).2 k = some os → ∀ x ∈ ls, os.start ≤ x.timestamp := by
  intro k os hos x hx
  unfold replayCore at hos
  split at hos
  · change (if k = l.machineId then
        some { start := l.timestamp, reason := reasonOrUnknown l.reason }
      else st.2 k) = some os at hos
    split at hos
    · rw [Option.some_inj] at hos
      subst hos
      exact hhead x hx
    · exact h2 k os hos x hx
  · split at hos
    · change (if k = l.machineId then none else st.2 k) = some os at hos
      split at hos
      · exact absurd hos (by simp)
      · exact h2 k os hos x hx
    · exact h2 k os hos x hx

/-- `replayStep` preserves non-negativity of accumulated durations. -/
theorem replayStep_nonneg (fs : Option ℚ) (st : ReplayState) (l : MachineHistoryLog)
    (h1 : ∀ i ∈ st.1, 0 ≤ i.duration)
    (h2 : ∀ k os, st.2 k = some os → os.start ≤ l.timestamp) :
    ∀ i ∈ (replayStep fs st l).1, 0 ≤ i.duration := by
  intro i hi
  unfold replayStep at hi
  rcases fs with _ | f
  · exact replayCore_nonneg st l h1 h2 i hi
  · change i ∈ (if l.timestamp < f then st else replayCore st l).1 at hi
    by_cases hc : l.timestamp < f
    · rw [if_pos hc] at hi
      exact h1 i hi
    · rw [if_neg hc] at hi
      exact replayCore_nonneg st l h1 h2 i hi

/-- `replayStep` preserves the bound on open-stoppage starts. -/
theorem replayStep_bound (fs : Option ℚ) (st : ReplayState) (l : MachineHistoryLog)
    (ls : List MachineHistoryLog)
    (hhead : ∀ x ∈ ls, l.timestamp ≤ x.timestamp)
    (h2 : ∀ k os, st.2 k = some os → ∀ x ∈ ls, os.start ≤ x.timestamp) :
    ∀ k os, (replayStep fs st l).2 k = some os → ∀ x ∈ ls, os.start ≤ x.timestamp := by
  intro k os hos x hx
  unfold replayStep at hos
  rcases fs with _ | f
  · exact replayCore_bound st l ls hhead h2 k os hos x hx
  · change (if l.timestamp < f then st else replayCore st l).2 k = some os at hos
    by_cases hc : l.timestamp < f
    · rw [if_pos hc] at hos
      exact h2 k os hos x hx
    · rw [if_neg hc] at hos
      exact replayCore_bound st l ls hhead h2 k os hos x hx

/-- Over a timestamp-sorted log, the whole replay fold only accumulates
intervals of non-negative duration. -/
theorem replay_foldl_nonneg (fs : Option ℚ) : ∀ (logs : List MachineHistoryLog)
    (st : ReplayState), List.Pairwise logLe logs →
    (∀ i ∈ st.1, 0 ≤ i.duration) →
    (∀ k os, st.2 k = some os → ∀ x ∈ logs, os.start ≤ x.timestamp) →
    ∀ i ∈ (logs.foldl (replayStep fs) st).1, 0 ≤ i.duration := by
  intro logs
  induction logs with
  | nil => exact fun st _ h1 _ i hi => h1 i hi
  | cons l ls ih =>
      intro st hp h1 h2
      rw [List.foldl_cons]
      rw [List.pairwise_cons] at hp
      refine ih _ hp.2 ?_ ?_
      · exact replayStep_nonneg fs st l h1
          (fun k os hos => h2 k os hos l (List.mem_cons_self l ls))
      · exact replayStep_bound fs st l ls hp.1
          (fun k os hos x hx => h2 k os hos x (List.mem_cons_of_mem l hx))

/-- Every interval output by `getDowntimeIntervals` has non-negative
duration: closed intervals because the log is replayed in ascending
timestamp order, synthesized ones because the shift-clipped active downtime
is non-negative. -/
theorem getDowntimeIntervals_nonneg (history : List MachineHistoryLog)
    (machines : List Machine) (workHours : WorkHoursConfig) (fs : Option ℚ) (now : ℚ) :
    ∀ i ∈ getDowntimeIntervals history machines workHours fs now, 0 ≤ i.duration := by
  intro i hi
  unfold getDowntimeIntervals getDowntimeIntervalsSorted at hi
  rw [List.mem_append] at hi
  rcases hi with hi | hi
  · refine replay_foldl_nonneg fs _ _ (List.sorted_insertionSort logLe history) ?_ ?_ i hi
    · exact fun j hj => absurd hj (List.not_mem_nil j)
    · exact fun k os hos => absurd hos (by simp)
  · rw [List.mem_filterMap] at hi
    obtain ⟨m, hm, hsyn⟩ := hi
    unfold synthOpenInterval at hsyn
    split at hsyn
    · split at hsyn
      · rw [Option.some_inj] at hsyn
        subst hsyn
        exact calculateActiveDowntime_nonneg _ _ _
      · exact absurd hsyn (by simp)
    · exact absurd hsyn (by simp)

/-- `updateGroup` preserves non-negativity of the per-group durations. -/
theorem updateGroup_nonneg (r : String) (d : ℚ) (hd : 0 ≤ d) :
    ∀ gs : List (String × ℕ × ℚ), (∀ g ∈ gs, 0 ≤ g.2.2) →
      ∀ g ∈ updateGroup gs r d, 0 ≤ g.2.2 := by
  intro gs
  induction gs with
  | nil =>
      intro _ g hg
      simp only [updateGroup] at hg
      rw [List.mem_singleton] at hg
      subst hg
      exact hd
  | cons a as ih =>
      intro h g hg
      simp only [updateGroup] at hg
      split at hg
      · rcases List.mem_cons.mp hg with hg | hg
        · subst hg
          exact add_nonneg (h a (List.mem_cons_self a as)) hd
        · exact h g (List.mem_cons_of_mem a hg)
      · rcases List.mem_cons.mp hg with hg | hg
        · subst hg
          exact h g (List.mem_cons_self g as)
        · exact ih (fun g' hg' => h g' (List.mem_cons_of_mem a hg')) g hg

/-- The grouping fold of `calculatePareto` preserves non-negativity of the
per-group durations. -/
theorem groups_nonneg : ∀ (intervals : List DowntimeInterval),
    (∀ i ∈ intervals, 0 ≤ i.duration) →
    ∀ gs0 : List (String × ℕ × ℚ), (∀ g ∈ gs0, 0 ≤ g.2.2) →
    ∀ g ∈ intervals.foldl (fun gs i => updateGroup gs i.reason i.duration) gs0,
      0 ≤ g.2.2 := by
  intro intervals
  induction intervals with
  | nil => exact fun _ gs0 h0 g hg => h0 g hg
  | cons i is ih =>
      intro hIv gs0 h0
      rw [List.foldl_cons]
      exact ih (fun j hj => hIv j (List.mem_cons_of_mem i hj)) _
        (updateGroup_nonneg i.reason i.duration (hIv i (List.mem_cons_self i is)) gs0 h0)

/-- The per-item percentage of `calculatePareto` is non-negative when the
item's duration is. -/
theorem percent_nonneg (t d : ℚ) (hd : 0 ≤ d) :
    0 ≤ if t > 0 then d / t * 100 else 0 := by
  split
  · rename_i ht
    exact mul_nonneg (div_nonneg hd (le_of_lt ht)) (by norm_num)
  · exact le_refl 0

/-- The durations carried through `paretoAccum` are exactly the group
durations, in order. -/
theorem paretoAccum_map_duration (t : ℚ) : ∀ (gs : List (String × ℕ × ℚ)) (a : ℚ),
    (paretoAccum t a gs).map (fun x => x.durationMs) = gs.map (fun g => g.2.2) := by
  intro gs
  induction gs with
  | nil => intro a; rfl
  | cons g gs ih =>
      intro a
      simp only [paretoAccum, List.map_cons]
      rw [ih]

/-- Every accumulated percentage produced by `paretoAccum` is at least the
rounding of the incoming running sum, when the group durations are
non-negative. -/
theorem paretoAccum_lb (t : ℚ) : ∀ (gs : List (String × ℕ × ℚ)) (a : ℚ),
    (∀ g ∈ gs, 0 ≤ g.2.2) →
    ∀ x ∈ paretoAccum t a gs, ((jround a : ℤ) : ℚ) ≤ x.accumulatedPercent := by
  intro gs
  induction gs with
  | nil => exact fun a _ x hx => absurd hx (List.not_mem_nil x)
  | cons g gs ih =>
      intro a hg x hx
      simp only [paretoAccum] at hx
      have hpct : 0 ≤ (if t > 0 then g.2.2 / t * 100 else 0) :=
        percent_nonneg t g.2.2 (hg g (List.mem_cons_self g gs))
      rcases List.mem_cons.mp hx with hx | hx
      · subst hx
        exact Int.cast_le.mpr (jround_mono (le_add_of_nonneg_right hpct))
      · calc ((jround a : ℤ) : ℚ) ≤
              ((jround (a + if t > 0 then g.2.2 / t * 100 else 0) : ℤ) : ℚ) :=
              Int.cast_le.mpr (jround_mono (le_add_of_nonneg_right hpct))
          _ ≤ x.accumulatedPercent :=
              ih _ (fun g' hg' => hg g' (List.mem_cons_of_mem g hg')) x hx

/-- The accumulated percentages produced by `paretoAccum` are non-decreasing
along the list, when the group durations are non-negative. -/
theorem paretoAccum_pairwise (t : ℚ) : ∀ (gs : List (String × ℕ × ℚ)) (a : ℚ),
    (∀ g ∈ gs, 0 ≤ g.2.2) →
    (paretoAccum t a gs).Pairwise
      (fun x y => x.accumulatedPercent ≤ y.accumulatedPercent) := by
  intro gs
  induction gs with
  | nil => exact fun a _ => List.Pairwise.nil
  | cons g gs ih =>
      intro a hg
      simp only [paretoAccum]
      rw [List.pairwise_cons]
      refine ⟨?_, ih _ (fun g' hg' => hg g' (List.mem_cons_of_mem g hg'))⟩
      intro y hy
      exact paretoAccum_lb t gs _ (fun g' hg' => hg g' (List.mem_cons_of_mem g hg')) y hy

theorem jround_intCast (n : ℤ) : jround ((n : ℤ) : ℚ) = n := by
  rw [jround_eq_floor, add_comm, Int.floor_add_int]
  have h0 : ⌊(1:ℚ)/2⌋ = 0 := by
    rw [Int.floor_eq_zero_iff]
    constructor <;> norm_num
  rw [h0, zero_add]

/-- When the grand total is positive, the last accumulated percentage
produced by `paretoAccum` is the rounding of the incoming running sum plus
the percentage of the whole remaining duration. -/
theorem paretoAccum_getLast (t : ℚ) (ht : t > 0) : ∀ (gs : List (String × ℕ × ℚ)) (a : ℚ),
    gs ≠ [] →
    ((paretoAccum t a gs).getLast?).map (fun x => x.accumulatedPercent) =
      some ((jround (a + (gs.map (fun g => g.2.2)).sum / t * 100) : ℤ) : ℚ) := by
  intro gs
  induction gs with
  | nil => exact fun a h => absurd rfl h
  | cons g gs ih =>
      intro a _
      rcases gs with _ | ⟨g2, gs2⟩
      · simp only [paretoAccum, List.getLast?_singleton, Option.map_some', List.map_cons,
          List.map_nil, List.sum_cons, List.sum_nil, add_zero]
        rw [if_pos ht]
      · simp only [paretoAccum]
        rw [List.getLast?_cons_cons]
        have := ih (a + if t > 0 then g.2.2 / t * 100 else 0) (List.cons_ne_nil g2 gs2)
        simp only [paretoAccum] at this
        rw [this]
        rw [if_pos ht]
        congr 2
        simp only [List.map_cons, List.sum_cons]
        ring_nf

/-- The Pareto pipeline downstream of interval reconstruction: non-negative
interval durations give non-decreasing accumulated percentages, and a
positive grand total makes the last accumulated percentage exactly 100. -/
theorem pareto_master (intervals : List DowntimeInterval)
    (hIv : ∀ i ∈ intervals, 0 ≤ i.duration) :
    (paretoAccum
        (((intervals.foldl (fun gs i => updateGroup gs i.reason i.duration) []).map
          (fun g => g.2.2)).sum) 0
        (List.insertionSort groupGe
          (intervals.foldl (fun gs i => updateGroup gs i.reason i.duration) []))).Pairwise
      (fun x y => x.accumulatedPercent ≤ y.accumulatedPercent) ∧
    (0 < ((paretoAccum
        (((intervals.foldl (fun gs i => updateGroup gs i.reason i.duration) []).map
          (fun g => g.2.2)).sum) 0
        (List.insertionSort groupGe
          (intervals.foldl (fun gs i => updateGroup gs i.reason i.duration) []))).map
        (fun x => x.durationMs)).sum →
      ((paretoAccum
        (((intervals.foldl (fun gs i => updateGroup gs i.reason i.duration) []).map
          (fun g => g.2.2)).sum) 0
        (List.insertionSort groupGe
          (intervals.foldl (fun gs i => updateGroup gs i.reason i.duration) []))).getLast?).map
        (fun x => x.accumulatedPercent) = some 100) := by
  have hGroups : ∀ g ∈ intervals.foldl (fun gs i => updateGroup gs i.reason i.duration) [],
      0 ≤ g.2.2 :=
    groups_nonneg intervals hIv [] (fun g hg => absurd hg (List.not_mem_nil g))
  have hperm := List.perm_insertionSort groupGe
    (intervals.foldl (fun gs i => updateGroup gs i.reason i.duration) [])
  have hSortedMem : ∀ g ∈ List.insertionSort groupGe
      (intervals.foldl (fun gs i => updateGroup gs i.reason i.duration) []), 0 ≤ g.2.2 :=
    fun g hg => hGroups g (hperm.mem_iff.mp hg)
  have hSum : ((List.insertionSort groupGe
        (intervals.foldl (fun gs i => updateGroup gs i.reason i.duration) [])).map
        (fun g => g.2.2)).sum =
      ((intervals.foldl (fun gs i => updateGroup gs i.reason i.duration) []).map
        (fun g => g.2.2)).sum :=
    (hperm.map (fun g => g.2.2)).sum_eq
  refine ⟨paretoAccum_pairwise _ _ 0 hSortedMem, ?_⟩
  intro hpos
  rw [paretoAccum_map_duration, hSum] at hpos
  have hne : List.insertionSort groupGe
      (intervals.foldl (fun gs i => updateGroup gs i.reason i.duration) []) ≠ [] := by
    intro h
    rw [h] at hSum
    simp only [List.map_nil, List.sum_nil] at hSum
    rw [← hSum] at hpos
    exact lt_irrefl 0 hpos
  rw [paretoAccum_getLast _ hpos _ 0 hne, hSum]
  have harg : 0 + ((intervals.foldl (fun gs i => updateGroup gs i.reason i.duration) []).map
      (fun g => g.2.2)).sum /
      ((intervals.foldl (fun gs i => updateGroup gs i.reason i.duration) []).map
      (fun g => g.2.2)).sum * 100 = (100 : ℚ) := by
    rw [div_self (ne_of_gt hpos)]
    norm_num
  rw [harg]
  have h100 : jround (100 : ℚ) = (100 : ℤ) := by
    have := jround_intCast 100
    norm_num at this
    exact this
  rw [h100]
  norm_num

/-- C3: the accumulated percentages of the Pareto output are non-decreasing
along the list, and when the grand total duration is strictly positive the
last item's accumulated percentage is exactly 100 (which is within the ±1
rounding allowance of the claim; in exact arithmetic the rounding of the
running sum introduces no drift at the final item). -/
theorem calculatePareto_cumulative (machines : List Machine)
    (history : List MachineHistoryLog) (workHours : WorkHoursConfig) (now : ℚ) :
    (calculatePareto machines history workHours now).Pairwise
      (fun x y => x.accumulatedPercent ≤ y.accumulatedPercent) ∧
    (0 < ((calculatePareto machines history workHours now).map
        (fun x => x.durationMs)).sum →
      ((calculatePareto machines history workHours now).getLast?).map
        (fun x => x.accumulatedPercent) = some 100) :=
  pareto_master (getDowntimeIntervals history machines workHours none now)
    (getDowntimeIntervals_nonneg history machines workHours none now)

unseal Rat.add Rat.mul Rat.inv Rat.sub in
/-- Witness for C3: for the concrete one-interval history the grand total is
60000 ms > 0 and the last (only) accumulated percentage is 100. -/
theorem calculatePareto_cumulative_witness :
    ((calculatePareto [machineIdle] histStopRun cfgDisabled 100000).getLast?).map
      (fun x => x.accumulatedPercent) = some 100 :=
  (calculatePareto_cumulative [machineIdle] histStopRun cfgDisabled 100000).2 (by decide)
